import Mathlib

/-!
Verification development for the container entrypoint of the
r_bring_your_own example: the mars.R train/serve dispatch shim, its
training routine, and the plumber.R serving handler, shallowly embedded
in Lean.  R data frames become lists of named columns, R character
vectors become lists of strings, numerics become rationals, and the
external libraries (mda model fitting, plumber HTTP transport) appear
as explicit function parameters.
-/

/-! ## Startup dispatch (mars.R):
args is commandArgs(); grepl with a literal pattern is substring search. -/

/-- The two routines mars.R can dispatch to at startup. -/
inductive Routine where
  | trainMode
  | serveMode
deriving DecidableEq, Repr

/-- Boolean test that the first list of characters is a prefix of the second. -/
def strPrefixOf : List Char → List Char → Bool
  | [], _ => true
  | _ :: _, [] => false
  | a :: as, b :: bs => a == b && strPrefixOf as bs

/-- Boolean test that the first list of characters occurs as a contiguous
substring of the second. -/
def strContains : List Char → List Char → Bool
  | pat, [] => strPrefixOf pat []
  | pat, c :: rest => strPrefixOf pat (c :: rest) || strContains pat rest

/-- grepl(pat, s) for a pattern with no regex metacharacters: literal
substring search, as used by mars.R on the startup arguments. -/
def grepl1 (pat s : String) : Bool :=
  strContains pat.data s.data

/-- any(grepl('train', args)). -/
def hasTrainArg (args : List String) : Bool :=
  args.any (fun a => grepl1 "train" a)

/-- any(grepl('serve', args)). -/
def hasServeArg (args : List String) : Bool :=
  args.any (fun a => grepl1 "serve" a)

/-- The run-at-startup block of mars.R: two independent if statements,
the train one first, each guarded by a substring scan of the process
arguments.  The result lists the routines invoked, in invocation order. -/
def runMain (args : List String) : List Routine :=
  (if hasTrainArg args then [Routine.trainMode] else []) ++
    (if hasServeArg args then [Routine.serveMode] else [])

/-! ## Tabular data model (R data frames as produced by read.csv) -/

/-- Contents of one data-frame column: numeric, or a factor holding the
raw string values. -/
inductive ColData where
  | num (vals : List ℚ)
  | factor (vals : List String)
deriving DecidableEq, Repr

/-- One named column of a data frame. -/
structure Column where
  name : String
  data : ColData
deriving DecidableEq, Repr

/-- is.factor for a column. -/
def isFactorCol (c : Column) : Bool :=
  match c.data with
  | ColData.num _ => false
  | ColData.factor _ => true

/-- Name and kind of a column, the part of its shape that determines
the design-matrix layout. -/
def colShape (c : Column) : String × Bool := (c.name, isFactorCol c)

/-- Number of entries in a column. -/
def colLen (c : Column) : Nat :=
  match c.data with
  | ColData.num v => v.length
  | ColData.factor v => v.length

/-- Number of rows of a data frame, read off its first column. -/
def nRows : List Column → Nat
  | [] => 0
  | c :: _ => colLen c

/-- Lexicographic comparison of character lists by code point. -/
def charListLe : List Char → List Char → Bool
  | [], _ => true
  | _ :: _, [] => false
  | a :: as, b :: bs => if a == b then charListLe as bs else decide (a.toNat < b.toNat)

/-- Lexicographic order on strings, as R sorts character vectors. -/
def strLe (a b : String) : Bool := charListLe a.data b.data

/-- Insert a string into a lexicographically sorted list. -/
def insertSorted (s : String) : List String → List String
  | [] => [s]
  | x :: xs => if strLe s x then s :: x :: xs else x :: insertSorted s xs

/-- Insertion sort of strings in lexicographic order. -/
def sortStrings : List String → List String
  | [] => []
  | x :: xs => insertSorted x (sortStrings xs)

/-- Distinct values in first-occurrence order, as unique in R. -/
def dedupStr : List String → List String
  | [] => []
  | x :: xs => x :: (dedupStr xs).filter (fun y => !(y == x))

/-- levels(factor(vals)) in R: the distinct values, sorted. -/
def rLevels (vals : List String) : List String :=
  sortStrings (dedupStr vals)

/-- The factor_levels object computed by train: each factor column of
the training data paired with its levels, in column order. -/
def factorLevels (df : List Column) : List (String × List String) :=
  df.filterMap (fun c =>
    match c.data with
    | ColData.num _ => none
    | ColData.factor vals => some (c.name, rLevels vals))

/-- Design-matrix column names contributed by one data column under
model.matrix with default treatment contrasts: a numeric column
contributes its own name; a factor column contributes one indicator
column per non-baseline level, the level set taken from xlev when the
column name is listed there and from the data otherwise. -/
def colMatrixNames (xlev : List (String × List String)) (c : Column) : List String :=
  match c.data with
  | ColData.num _ => [c.name]
  | ColData.factor vals =>
      (((xlev.lookup c.name).getD (rLevels vals)).drop 1).map (fun l => c.name ++ l)

/-- Column layout of model.matrix(~., df, xlev): the intercept column
followed by each data column expansion, in data order. -/
def designNames (xlev : List (String × List String)) (df : List Column) : List String :=
  "(Intercept)" :: df.flatMap (colMatrixNames xlev)

/-- Numeric encoding of entry i of one column: the value itself for a
numeric column, the indicator vector over non-baseline levels for a
factor column. -/
def colMatrixRow (xlev : List (String × List String)) (c : Column) (i : Nat) : List ℚ :=
  match c.data with
  | ColData.num vals => [vals.getD i 0]
  | ColData.factor vals =>
      (((xlev.lookup c.name).getD (rLevels vals)).drop 1).map
        (fun l => if vals.getD i "" = l then 1 else 0)

/-- Row i of the design matrix: intercept then the per-column encodings. -/
def designRow (xlev : List (String × List String)) (df : List Column) (i : Nat) : List ℚ :=
  1 :: df.flatMap (fun c => colMatrixRow xlev c i)

/-- model.matrix(~., df, xlev): the numeric design matrix, one row per
data row. -/
def model_matrix (xlev : List (String × List String)) (df : List Column) : List (List ℚ) :=
  (List.range (nRows df)).map (designRow xlev df)

/-! ## Numeric and CSV parsing -/

/-- Value of a decimal digit character. -/
def digitVal (c : Char) : Option Nat :=
  if c.isDigit then some (c.toNat - 48) else none

/-- Parse a nonempty run of decimal digits. -/
def parseNatDigits (cs : List Char) : Option Nat :=
  if cs.isEmpty then none
  else cs.foldl (fun acc c =>
    match acc, digitVal c with
    | some n, some d => some (n * 10 + d)
    | _, _ => none) (some 0)

/-- Split a character list on a separator character; n separators give
n+1 groups. -/
def splitOnChar (sep : Char) : List Char → List (List Char)
  | [] => [[]]
  | c :: rest =>
    if c == sep then [] :: splitOnChar sep rest
    else
      match splitOnChar sep rest with
      | [] => [[c]]
      | g :: gs => (c :: g) :: gs

/-- as.numeric on a plain decimal literal: optional minus sign, integer
part, optional fractional part; none when the text is not numeric. -/
def parseNumChars (cs : List Char) : Option ℚ :=
  let core := fun t : List Char =>
    match splitOnChar '.' t with
    | [i] => (parseNatDigits i).map (fun n => (n : ℚ))
    | [i, f] =>
        match parseNatDigits i, parseNatDigits f with
        | some a, some b => some ((a : ℚ) + (b : ℚ) / ((10 : ℚ) ^ f.length))
        | _, _ => none
    | _ => none
  match cs with
  | '-' :: rest => (core rest).map (fun q => -q)
  | _ => core cs

/-- as.numeric on a string. -/
def parseNum (s : String) : Option ℚ :=
  parseNumChars s.data

/-- read.csv on a text body: the first nonblank line is the header, the
remaining nonblank lines are records (blank lines are skipped); a
column whose every entry parses as a number is numeric, every other
column becomes a factor, matching the stringsAsFactors default of the
R shipped in the container image. -/
def read_csv (body : String) : List Column :=
  match (splitOnChar '\n' body.data).filter (fun l => !(l.isEmpty)) with
  | [] => []
  | header :: records =>
    let names := (splitOnChar ',' header).map String.mk
    let rows := records.map (fun r => (splitOnChar ',' r).map String.mk)
    (List.range names.length).map (fun j =>
      let vals := rows.map (fun r => r.getD j "")
      { name := names.getD j "",
        data :=
          if vals.all (fun v => (parseNum v).isSome)
          then ColData.num (vals.map (fun v => (parseNum v).getD 0))
          else ColData.factor vals })

/-! ## Request body rewriting (plumber.R) -/

/-- gsub of the two-character sequence backslash n to a newline
character, scanning left to right over non-overlapping matches. -/
def unescapeNl : List Char → List Char
  | [] => []
  | [c] => [c]
  | a :: b :: rest =>
    if a == '\\' && b == 'n' then '\n' :: unescapeNl rest
    else a :: unescapeNl (b :: rest)

/-- The body rewrite the invocations handler applies before read.csv. -/
def unescapeBody (s : String) : String :=
  String.mk (unescapeNl s.data)

/-- Detects an occurrence of the two-character sequence backslash n. -/
def hasBackslashN : List Char → Bool
  | [] => false
  | [_] => false
  | a :: b :: rest => (a == '\\' && b == 'n') || hasBackslashN (b :: rest)

/-! ## Training routine (mars.R train) -/

/-- The hyperparameters JSON object: target is required, degree is
optional, and JSON values arrive as strings. -/
structure TrainingParams where
  target : String
  degree : Option String
deriving DecidableEq, Repr

/-- Degree selection in train: as.numeric of the supplied value when
the degree key is present, the default 2 otherwise. -/
def degreeOf (p : TrainingParams) : ℚ :=
  match p.degree with
  | some s => (parseNum s).getD 0
  | none => 2

/-- A named component of the fitted mars model object (an R list
entry). -/
inductive RComp where
  | nums (vals : List ℚ)
  | strs (vals : List String)
  | mat (rows : List (List ℚ))
deriving DecidableEq, Repr

/-- The component names dropped from the persisted model. -/
def bulkFields : List String := ["x", "residuals", "fitted.values"]

/-- model[!(names(model) %in% c('x','residuals','fitted.values'))]. -/
def trimModel (m : List (String × RComp)) : List (String × RComp) :=
  m.filter (fun kv => !(bulkFields.contains kv.1))

/-- training_data[, target] for a numeric target column. -/
def targetColumn (df : List Column) (target : String) : List ℚ :=
  match df.find? (fun c => c.name == target) with
  | some c =>
    match c.data with
    | ColData.num v => v
    | ColData.factor _ => []
  | none => []

/-- training_data[, colnames(training_data) != target]. -/
def dropTarget (df : List Column) (target : String) : List Column :=
  df.filter (fun c => !(c.name == target))

/-- model$fitted.values, read out of the fitted model object. -/
def fittedValuesOf (m : List (String × RComp)) : List ℚ :=
  match m.lookup "fitted.values" with
  | some (RComp.nums v) => v
  | _ => []

/-- The mars_model.RData bundle persisted by train: the trimmed model
object saved together with factor_levels. -/
structure Artifact (μ : Type) where
  mars_model : μ
  factor_levels : List (String × List String)
deriving DecidableEq, Repr

/-- Everything a successful training run persists. -/
structure TrainOutput where
  artifact : Artifact (List (String × RComp))
  fitted_values : List ℚ
  success_marker : String
deriving DecidableEq, Repr

/-- The train function of mars.R, with the external mda fit passed in
as a function of the design matrix, the response vector and the
degree.  The success marker is written by write, which outputs the
word success followed by a newline. -/
def train (marsFit : List (List ℚ) → List ℚ → ℚ → List (String × RComp))
    (params : TrainingParams) (training_data : List Column) : TrainOutput :=
  let degree := degreeOf params
  let training_X := model_matrix [] (dropTarget training_data params.target)
  let factor_lv := factorLevels training_data
  let model := marsFit training_X (targetColumn training_data params.target) degree
  let mars_model := trimModel model
  { artifact := { mars_model := mars_model, factor_levels := factor_lv },
    fitted_values := fittedValuesOf model,
    success_marker := "success\n" }

/-! ## Serving routine (plumber.R) -/

/-- Rendering of one numeric prediction in the response. -/
def numToString (q : ℚ) : String := toString q

/-- paste(xs, collapse=',') over numeric predictions. -/
def joinComma (xs : List ℚ) : String :=
  String.intercalate "," (xs.map numToString)

/-- The plumber.R invocations handler: load the artifact from its fixed
path (the artifact argument stands for the bytes on disk at request
time), rewrite escaped newlines in the request body, parse it as CSV,
expand it against the stored factor_levels, predict with the external
mda predict function, and join the predictions with commas. -/
def invocations (μ : Type) (predictFn : μ → List (List ℚ) → List ℚ)
    (diskArtifact : Artifact μ) (postBody : String) : String :=
  let data := read_csv (unescapeBody postBody)
  let scoring_X := model_matrix diskArtifact.factor_levels data
  joinComma (predictFn diskArtifact.mars_model scoring_X)

/-- The serving process over a sequence of request bodies made while
the artifact file is unchanged: plumber hands each body to the handler,
which keeps no state between calls. -/
def serveRequests (μ : Type) (predictFn : μ → List (List ℚ) → List ℚ)
    (diskArtifact : Artifact μ) (reqs : List String) : List String :=
  reqs.map (invocations μ predictFn diskArtifact)

/-! ## Training run with explicit fallible effects (for failure
semantics) -/

/-- Fixed container path of the persisted model bundle. -/
def modelArtifactPath : String := "/opt/ml/model/mars_model.RData"

/-- Fixed container path of the in-sample fitted values file. -/
def fittedValuesPath : String := "/opt/ml/output/data/fitted_values.csv"

/-- Fixed container path of the success marker file. -/
def successMarkerPath : String := "/opt/ml/output/success"

/-- One run of the training routine with each fallible effect explicit:
reading the hyperparameter file, reading the data files, the mda fit,
and the three output writes, in source order. -/
structure TrainEnv where
  readParams : Except String TrainingParams
  readData : Except String (List Column)
  fit : List (List ℚ) → List ℚ → ℚ → Except String (List (String × RComp))
  saveArtifact : Except String Unit
  writeFitted : Except String Unit
  writeMarker : Except String Unit

/-- Trace of the output writes of train, stage after the model fit
succeeded: the artifact save, the fitted-values write and the marker
write run in source order and the first failure aborts the rest. -/
def traceAfterFit (env : TrainEnv) : List String × Option String :=
  match env.saveArtifact with
  | Except.error e => ([], some e)
  | Except.ok _ =>
    match env.writeFitted with
    | Except.error e => ([modelArtifactPath], some e)
    | Except.ok _ =>
      match env.writeMarker with
      | Except.error e => ([modelArtifactPath, fittedValuesPath], some e)
      | Except.ok _ =>
        ([modelArtifactPath, fittedValuesPath, successMarkerPath], none)

/-- Trace of train after the data load succeeded: the mda fit runs on
the design matrix, the target column and the degree; a fit error aborts
the run before any write. -/
def traceAfterData (env : TrainEnv) (params : TrainingParams)
    (training_data : List Column) : List String × Option String :=
  match env.fit (model_matrix [] (dropTarget training_data params.target))
      (targetColumn training_data params.target) (degreeOf params) with
  | Except.error e => ([], some e)
  | Except.ok _ => traceAfterFit env

/-- Trace of train after the hyperparameter read succeeded. -/
def traceAfterParams (env : TrainEnv) (params : TrainingParams) :
    List String × Option String :=
  match env.readData with
  | Except.error e => ([], some e)
  | Except.ok training_data => traceAfterData env params training_data

/-- Trace of a training run: the file paths successfully written, in
order, together with the error of the first failing step when one
fails.  train contains no handler, so the first failure aborts the
sequence and nothing after it runs. -/
def trainRunTrace (env : TrainEnv) : List String × Option String :=
  match env.readParams with
  | Except.error e => ([], some e)
  | Except.ok params => traceAfterParams env params

/-- Modelled from the spec: the Rscript process exit status, 0 on a
clean run and 1 when an error propagated out of train, since the
process is expected to terminate with non-zero status on failure (the
exit-status mapping is process behaviour outside the R sources). -/
def trainExitCode (env : TrainEnv) : Nat :=
  match (trainRunTrace env).2 with
  | none => 0
  | some _ => 1

/-- Decidable check that every categorical value of a column is drawn
from the level list stored for it in a category-level mapping. -/
def factorValsSubset (xlev : List (String × List String)) (c : Column) : Bool :=
  match c.data with
  | ColData.num _ => true
  | ColData.factor vals => vals.all (fun v => ((xlev.lookup c.name).getD []).contains v)

/-- The single-record example request body from the notebook scenario. -/
def irisRequestBody : String :=
  "Sepal.Width,Petal.Length,Petal.Width,Species\n3.5,1.4,0.2,setosa"

/-! ## Helper lemmas about substring search -/

theorem strPrefixOf_iff (as bs : List Char) :
    strPrefixOf as bs = true ↔ as <+: bs := by
  induction as generalizing bs with
  | nil => exact iff_of_true rfl (List.nil_prefix)
  | cons a as ih =>
    cases bs with
    | nil =>
      rw [show strPrefixOf (a :: as) [] = false from rfl]
      simp [List.prefix_nil]
    | cons b bs =>
      show (a == b && strPrefixOf as bs) = true ↔ _
      simp [List.cons_prefix_cons, ih]

theorem strContains_iff (pat s : List Char) :
    strContains pat s = true ↔ pat <:+: s := by
  induction s with
  | nil =>
    cases pat with
    | nil => simp [strContains, strPrefixOf, List.infix_nil]
    | cons c cs => simp [strContains, strPrefixOf, List.infix_nil]
  | cons c rest ih =>
    simp [strContains, Bool.or_eq_true, strPrefixOf_iff, ih,
      List.infix_cons_iff]

/-! ## Claim theorems on dispatch -/

/-- C2.  Entrypoint dispatch: the startup block of mars.R runs the
Training Routine exactly when some argument carries the training
indicator, runs the Serving Routine exactly when some argument carries
the serving indicator, runs neither when neither indicator is present,
and when both indicators are present runs both routines with the
Training Routine first. -/
theorem runMain_dispatch (args : List String) :
    runMain args =
      match hasTrainArg args, hasServeArg args with
      | true, true => [Routine.trainMode, Routine.serveMode]
      | true, false => [Routine.trainMode]
      | false, true => [Routine.serveMode]
      | false, false => [] := by
  unfold runMain
  cases h1 : hasTrainArg args <;> cases h2 : hasServeArg args <;> simp

/-- C10.  Substring-based mode detection: the Training Routine is
invoked iff some process argument contains the five characters of
train as a contiguous substring, and likewise the Serving Routine for
serve; in particular the unrelated arguments restrain and observer
trigger the respective routines. -/
theorem runMain_substring_detection :
    (∀ args : List String,
      (Routine.trainMode ∈ runMain args ↔ ∃ a ∈ args, "train".data <:+: a.data) ∧
      (Routine.serveMode ∈ runMain args ↔ ∃ a ∈ args, "serve".data <:+: a.data)) ∧
    Routine.trainMode ∈ runMain ["restrain"] ∧
    Routine.serveMode ∈ runMain ["observer"] := by
  refine ⟨fun args => ⟨?_, ?_⟩, by decide, by decide⟩
  · unfold runMain hasTrainArg
    cases h : List.any args (fun a => grepl1 "train" a) with
    | false =>
      simp only [if_false]
      rw [← Bool.not_eq_true, List.any_eq_true] at h
      push_neg at h
      simp only [List.mem_append]
      constructor
      · intro hmem
        rcases hmem with hmem | hmem
        · simp at hmem
        · by_cases hs : hasServeArg args = true <;> simp [hs] at hmem
      · rintro ⟨a, ha, hinf⟩
        exact absurd ((strContains_iff _ _).mpr hinf) (by simpa using h a ha)
    | true =>
      simp only [if_true]
      rw [List.any_eq_true] at h
      obtain ⟨a, ha, hc⟩ := h
      exact iff_of_true (by simp) ⟨a, ha, (strContains_iff _ _).mp hc⟩
  · unfold runMain hasServeArg
    cases h : List.any args (fun a => grepl1 "serve" a) with
    | false =>
      simp only [if_false]
      rw [← Bool.not_eq_true, List.any_eq_true] at h
      push_neg at h
      simp only [List.mem_append]
      constructor
      · intro hmem
        rcases hmem with hmem | hmem
        · by_cases ht : hasTrainArg args = true <;> simp [ht] at hmem
        · simp at hmem
      · rintro ⟨a, ha, hinf⟩
        exact absurd ((strContains_iff _ _).mpr hinf) (by simpa using h a ha)
    | true =>
      simp only [if_true]
      rw [List.any_eq_true] at h
      obtain ⟨a, ha, hc⟩ := h
      exact iff_of_true (by simp) ⟨a, ha, (strContains_iff _ _).mp hc⟩

/-! ## Claim theorems on the training routine -/

/-- C6 counterexample.  The claim that the success marker has zero-byte
content fails: on a concrete run the marker written by train has eight
bytes of content, the word success plus a newline, because write in R
appends a newline to the text it is given. -/
theorem train_success_marker_nonempty :
    ((train (fun _ _ _ => []) (TrainingParams.mk "y" none) []).success_marker).length = 8 :=
  rfl

/-- C6 amended.  After every successful training run the success marker
file at the fixed output path contains exactly the text success
followed by a newline; it signals success by its presence and fixed
content, not by zero-byte content. -/
theorem train_success_marker_content
    (marsFit : List (List ℚ) → List ℚ → ℚ → List (String × RComp))
    (params : TrainingParams) (training_data : List Column) :
    (train marsFit params training_data).success_marker = "success\n" :=
  rfl

/-- C4.  Degree default equivalence: when the degree hyperparameter is
absent, train uses degree 2, so training with an explicit degree of
the string 2 and training with degree omitted produce identical
outputs, the persisted Model Artifact included, on every dataset and
every deterministic fitting function. -/
theorem train_degree_default_equivalence
    (marsFit : List (List ℚ) → List ℚ → ℚ → List (String × RComp))
    (target : String) (training_data : List Column) :
    train marsFit (TrainingParams.mk target (some "2")) training_data =
      train marsFit (TrainingParams.mk target none) training_data := by
  have h : degreeOf (TrainingParams.mk target (some "2")) =
      degreeOf (TrainingParams.mk target none) := by
    show (parseNum "2").getD 0 = (2 : ℚ)
    decide
  simp only [train, h]

/-- C7.  Artifact trimming: the model object inside the Model Artifact
persisted by train holds exactly the components of the fitted model
whose names are not among x, residuals and fitted.values; those three
training-time-only bulk fields are never present, and every other
component is kept. -/
theorem train_artifact_trims_bulk_fields
    (marsFit : List (List ℚ) → List ℚ → ℚ → List (String × RComp))
    (params : TrainingParams) (training_data : List Column)
    (kv : String × RComp) :
    kv ∈ (train marsFit params training_data).artifact.mars_model ↔
      (kv ∈ marsFit (model_matrix [] (dropTarget training_data params.target))
          (targetColumn training_data params.target) (degreeOf params) ∧
        bulkFields.contains kv.1 = false) := by
  show kv ∈ trimModel _ ↔ _
  unfold trimModel
  rw [List.mem_filter]
  simp [Bool.not_eq_true']

/-- C8.  Training failure semantics: whenever any step of the training
routine fails (hyperparameter parsing, data loading, model fitting, or
any output write), the error propagates uncaught, the process exit
status is non-zero, and the success marker is not among the files
written; in particular nothing after the failing step runs. -/
theorem trainRunTrace_failure (env : TrainEnv) (e : String)
    (h : (trainRunTrace env).2 = some e) :
    trainExitCode env = 1 ∧
      (trainRunTrace env).1.contains successMarkerPath = false := by
  have hx : trainExitCode env = 1 := by
    unfold trainExitCode
    rw [h]
  refine ⟨hx, ?_⟩
  unfold trainRunTrace at h ⊢
  rcases h1 : env.readParams with e1 | params
  · rfl
  · rw [h1] at h
    replace h : (traceAfterParams env params).2 = some e := h
    show (traceAfterParams env params).1.contains successMarkerPath = false
    unfold traceAfterParams at h ⊢
    rcases h2 : env.readData with e2 | td
    · rfl
    · rw [h2] at h
      replace h : (traceAfterData env params td).2 = some e := h
      show (traceAfterData env params td).1.contains successMarkerPath = false
      unfold traceAfterData at h ⊢
      rcases h3 : env.fit (model_matrix [] (dropTarget td params.target))
          (targetColumn td params.target) (degreeOf params) with e3 | m
      · rfl
      · rw [h3] at h
        replace h : (traceAfterFit env).2 = some e := h
        show (traceAfterFit env).1.contains successMarkerPath = false
        unfold traceAfterFit at h ⊢
        rcases h4 : env.saveArtifact with e4 | u4
        · rfl
        · rw [h4] at h
          rcases h5 : env.writeFitted with e5 | u5
          · rfl
          · rw [h5] at h
            rcases h6 : env.writeMarker with e6 | u6
            · rfl
            · rw [h6] at h
              exact absurd (show (none : Option String) = some e from h) (by simp)

/-- C8 witness: a run whose hyperparameter read fails exits with
status 1 and writes no success marker. -/
theorem trainRunTrace_failure_witness :
    trainExitCode
        (TrainEnv.mk (Except.error "missing hyperparameters") (Except.ok [])
          (fun _ _ _ => Except.ok []) (Except.ok ()) (Except.ok ()) (Except.ok ())) = 1 ∧
      (trainRunTrace
          (TrainEnv.mk (Except.error "missing hyperparameters") (Except.ok [])
            (fun _ _ _ => Except.ok []) (Except.ok ()) (Except.ok ())
            (Except.ok ()))).1.contains successMarkerPath = false :=
  trainRunTrace_failure
    (TrainEnv.mk (Except.error "missing hyperparameters") (Except.ok [])
      (fun _ _ _ => Except.ok []) (Except.ok ()) (Except.ok ()) (Except.ok ()))
    "missing hyperparameters" rfl

/-! ## Claim theorems on the serving routine -/

/-- C3.  Serving statelessness and determinism: while the artifact file
on disk is unchanged, the response at position i of the serving
process is a function of the request body at position i alone, so two
requests with identical bodies receive identical responses regardless
of their position in the request sequence and of the other requests. -/
theorem serveRequests_stateless (μ : Type)
    (predictFn : μ → List (List ℚ) → List ℚ) (diskArtifact : Artifact μ)
    (reqs : List String) (i j : Nat)
    (h : reqs[i]? = reqs[j]?) :
    (serveRequests μ predictFn diskArtifact reqs)[i]? =
        (serveRequests μ predictFn diskArtifact reqs)[j]? ∧
      (serveRequests μ predictFn diskArtifact reqs)[i]? =
        Option.map (invocations μ predictFn diskArtifact) reqs[i]? := by
  unfold serveRequests
  rw [List.getElem?_map, List.getElem?_map, h]
  exact ⟨rfl, rfl⟩

/-- C3 witness: two identical request bodies in one request sequence
against one artifact receive the same response. -/
theorem serveRequests_stateless_witness :
    ((serveRequests Unit (fun _ _ => []) (Artifact.mk () []) ["a,b\n1,2", "a,b\n1,2"])[0]? =
        (serveRequests Unit (fun _ _ => []) (Artifact.mk () []) ["a,b\n1,2", "a,b\n1,2"])[1]? ∧
      (serveRequests Unit (fun _ _ => []) (Artifact.mk () []) ["a,b\n1,2", "a,b\n1,2"])[0]? =
        Option.map (invocations Unit (fun _ _ => []) (Artifact.mk () []))
          ["a,b\n1,2", "a,b\n1,2"][0]?) :=
  serveRequests_stateless Unit (fun _ _ => []) (Artifact.mk () [])
    ["a,b\n1,2", "a,b\n1,2"] 0 1 rfl

/-! ## Helper lemmas about the newline rewrite -/

theorem hasBackslashN_cons_ne (c : Char) (xs : List Char)
    (hc : (c == '\\') = false) :
    hasBackslashN (c :: xs) = hasBackslashN xs := by
  cases xs with
  | nil => rfl
  | cons x xs =>
    show ((c == '\\') && (x == 'n') || hasBackslashN (x :: xs)) = _
    rw [hc]
    simp

theorem hasBackslashN_bslash_cons (xs : List Char)
    (h : xs.head? ≠ some 'n') :
    hasBackslashN ('\\' :: xs) = hasBackslashN xs := by
  cases xs with
  | nil => rfl
  | cons x xs =>
    have hx : (x == 'n') = false := by
      simp only [List.head?_cons, ne_eq, Option.some.injEq] at h
      simpa using h
    show (('\\' == '\\') && (x == 'n') || hasBackslashN (x :: xs)) = _
    rw [hx]
    simp

theorem unescapeNl_head (b : Char) (rest : List Char) :
    (unescapeNl (b :: rest)).head? = some '\n' ∨
      (unescapeNl (b :: rest)).head? = some b := by
  cases rest with
  | nil => right; rfl
  | cons c2 r2 =>
    rw [unescapeNl]
    split
    · left; rfl
    · right; rfl

theorem unescapeNl_no_bsn (l : List Char) :
    hasBackslashN (unescapeNl l) = false := by
  induction l using unescapeNl.induct with
  | case1 => rfl
  | case2 c => rfl
  | case3 a b rest hab ih =>
    rw [unescapeNl, if_pos hab, hasBackslashN_cons_ne _ _ (by decide)]
    exact ih
  | case4 a b rest hab ih =>
    rw [unescapeNl, if_neg hab]
    by_cases ha : (a == '\\') = true
    · have ha' : a = '\\' := by simpa using ha
      subst ha'
      have hb : (unescapeNl (b :: rest)).head? ≠ some 'n' := by
        have hbn : b ≠ 'n' := by
          intro hbn
          subst hbn
          simp at hab
        rcases unescapeNl_head b rest with hh | hh <;> rw [hh] <;> simp [hbn]
      rw [hasBackslashN_bslash_cons _ hb]
      exact ih
    · rw [hasBackslashN_cons_ne _ _ (by simpa using ha)]
      exact ih

/-- C9.  Request-body newline rewriting: before parsing, the handler
replaces every two-character backslash n sequence in the body with a
newline, so a body arriving with escaped newlines parses as multiple
records (the concrete escaped body below parses as two records); and
the rewritten text can never contain a backslash n sequence, so a
field value holding that literal sequence cannot pass through the
invocations interface unaltered. -/
theorem invocations_newline_rewrite :
    unescapeBody "A,B\\n1,x\\n2,y" = "A,B\n1,x\n2,y" ∧
    nRows (read_csv (unescapeBody "A,B\\n1,x\\n2,y")) = 2 ∧
    (∀ s : String, hasBackslashN (unescapeNl s.data) = false) :=
  ⟨by decide, by decide, fun s => unescapeNl_no_bsn s.data⟩

/-! ## Helper lemmas about design-matrix layout and factor levels -/

theorem factorLevels_cons_num (d : Column) (ds : List Column) (v : List ℚ)
    (hd : d.data = ColData.num v) :
    factorLevels (d :: ds) = factorLevels ds := by
  unfold factorLevels
  rw [List.filterMap_cons, hd]

theorem factorLevels_cons_factor (d : Column) (ds : List Column) (w : List String)
    (hd : d.data = ColData.factor w) :
    factorLevels (d :: ds) = (d.name, rLevels w) :: factorLevels ds := by
  unfold factorLevels
  rw [List.filterMap_cons, hd]

theorem factorLevels_lookup :
    ∀ (df : List Column) (c : Column) (vals : List String),
      (df.map Column.name).Nodup → c ∈ df → c.data = ColData.factor vals →
      (factorLevels df).lookup c.name = some (rLevels vals) := by
  intro df
  induction df with
  | nil => intro c vals _ hc _; cases hc
  | cons d ds ih =>
    intro c vals hnd hc hf
    rw [List.map_cons, List.nodup_cons] at hnd
    obtain ⟨hd1, hd2⟩ := hnd
    rcases List.mem_cons.mp hc with rfl | hmem
    · rw [factorLevels_cons_factor c ds vals hf]
      simp [List.lookup]
    · have hcn : c.name ∈ ds.map Column.name := List.mem_map_of_mem Column.name hmem
      have hne : (c.name == d.name) = false := by
        apply beq_eq_false_iff_ne.mpr
        intro hEq
        exact hd1 (hEq ▸ hcn)
      cases hdd : d.data with
      | num v =>
        rw [factorLevels_cons_num d ds v hdd]
        exact ih c vals hd2 hmem hf
      | factor w =>
        rw [factorLevels_cons_factor d ds w hdd]
        simp only [List.lookup, hne]
        exact ih c vals hd2 hmem hf

theorem colMatrixNames_head_eq (xlev : List (String × List String)) (a b : Column)
    (hs : colShape a = colShape b)
    (hlev : ∀ vals, b.data = ColData.factor vals →
        xlev.lookup b.name = some (rLevels vals)) :
    colMatrixNames xlev a = colMatrixNames [] b := by
  have hname : a.name = b.name := congrArg Prod.fst hs
  have hkind : isFactorCol a = isFactorCol b := congrArg Prod.snd hs
  cases ha : a.data with
  | num va =>
    cases hb : b.data with
    | num vb => simp only [colMatrixNames, ha, hb, hname]
    | factor vb => simp [isFactorCol, ha, hb] at hkind
  | factor va =>
    cases hb : b.data with
    | num vb => simp [isFactorCol, ha, hb] at hkind
    | factor vb =>
      simp only [colMatrixNames, ha, hb, hname, hlev vb hb, List.lookup_nil,
        Option.getD_some, Option.getD_none]

theorem colMatrixNames_flatMap_eq (xlev : List (String × List String)) :
    ∀ as bs : List Column,
      as.map colShape = bs.map colShape →
      (∀ c ∈ bs, ∀ vals, c.data = ColData.factor vals →
        xlev.lookup c.name = some (rLevels vals)) →
      as.flatMap (colMatrixNames xlev) = bs.flatMap (colMatrixNames []) := by
  intro as
  induction as with
  | nil =>
    intro bs hshape _
    cases bs with
    | nil => rfl
    | cons b bs => simp at hshape
  | cons a as ih =>
    intro bs hshape hlev
    cases bs with
    | nil => simp at hshape
    | cons b bs =>
      simp only [List.map_cons, List.cons.injEq] at hshape
      obtain ⟨hs1, hs2⟩ := hshape
      rw [List.flatMap_cons, List.flatMap_cons,
        colMatrixNames_head_eq xlev a b hs1
          (fun vals hv => hlev b (List.mem_cons_self b bs) vals hv),
        ih bs hs2 (fun c hc vals hv => hlev c (List.mem_cons_of_mem b hc) vals hv)]

/-- C1.  Round-trip encoding invariant: for an inference data frame
whose columns have the names and kinds of the training features and
whose categorical values are drawn from the levels stored in the Model
Artifact, expanding it with model.matrix against the artifact's
factor_levels mapping yields exactly the column layout, names and
order included, that the training-time expansion of the feature
columns produced, even when the inference batch holds a strict subset
of the observed category values. -/
theorem roundtrip_design_layout
    (marsFit : List (List ℚ) → List ℚ → ℚ → List (String × RComp))
    (params : TrainingParams) (training_data inference_data : List Column)
    (hnd : (training_data.map Column.name).Nodup)
    (hshape : inference_data.map colShape =
      (dropTarget training_data params.target).map colShape)
    (hvals : ∀ c ∈ inference_data,
      factorValsSubset
        ((train marsFit params training_data).artifact.factor_levels) c = true) :
    designNames ((train marsFit params training_data).artifact.factor_levels)
        inference_data =
      designNames [] (dropTarget training_data params.target) := by
  have hart : (train marsFit params training_data).artifact.factor_levels =
      factorLevels training_data := rfl
  rw [hart]
  unfold designNames
  congr 1
  apply colMatrixNames_flatMap_eq _ _ _ hshape
  intro c hc vals hv
  exact factorLevels_lookup training_data c vals hnd (List.mem_of_mem_filter hc) hv

/-- C1 witness: a two-column training set with a numeric target and a
two-level Species factor, and a one-record inference batch carrying
only one of the two observed species. -/
theorem roundtrip_design_layout_witness :
    designNames
        ((train (fun _ _ _ => []) (TrainingParams.mk "Sepal.Length" (some "2"))
            [Column.mk "Sepal.Length" (ColData.num [5, 6]),
              Column.mk "Species"
                (ColData.factor ["virginica", "setosa"])]).artifact.factor_levels)
        [Column.mk "Species" (ColData.factor ["setosa"])] =
      designNames []
        (dropTarget
          [Column.mk "Sepal.Length" (ColData.num [5, 6]),
            Column.mk "Species" (ColData.factor ["virginica", "setosa"])]
          "Sepal.Length") :=
  roundtrip_design_layout (fun _ _ _ => [])
    (TrainingParams.mk "Sepal.Length" (some "2"))
    [Column.mk "Sepal.Length" (ColData.num [5, 6]),
      Column.mk "Species" (ColData.factor ["virginica", "setosa"])]
    [Column.mk "Species" (ColData.factor ["setosa"])]
    (by decide) (by decide) (by decide)

/-- C5.  Prediction response format: the handler's response is the
predictions joined by commas as plain text, and for the notebook's
single-record iris request body the parsed batch has exactly one row,
so whenever the external predict function returns one value per input
row the response is exactly one numeric value. -/
theorem invocations_single_record_response (μ : Type)
    (predictFn : μ → List (List ℚ) → List ℚ) (art : Artifact μ)
    (h : ∀ m X, (predictFn m X).length = X.length) :
    ∃ p : ℚ,
      predictFn art.mars_model
          (model_matrix art.factor_levels (read_csv (unescapeBody irisRequestBody))) =
        [p] ∧
      invocations μ predictFn art irisRequestBody = numToString p := by
  have hn : (model_matrix art.factor_levels
      (read_csv (unescapeBody irisRequestBody))).length = 1 := by
    unfold model_matrix
    rw [List.length_map, List.length_range]
    decide
  have hlen : (predictFn art.mars_model
      (model_matrix art.factor_levels (read_csv (unescapeBody irisRequestBody)))).length = 1 := by
    rw [h]
    exact hn
  obtain ⟨p, hp⟩ := List.length_eq_one.mp hlen
  refine ⟨p, hp, ?_⟩
  show joinComma (predictFn art.mars_model
      (model_matrix art.factor_levels (read_csv (unescapeBody irisRequestBody)))) =
    numToString p
  rw [hp]
  rfl

/-- C5 witness: a predict function returning one value per row,
applied to the notebook's single-record request body. -/
theorem invocations_single_record_response_witness :
    ∃ p : ℚ,
      (fun (_ : Unit) (X : List (List ℚ)) => X.map (fun _ => (0 : ℚ)))
          (Artifact.mk () ([] : List (String × List String))).mars_model
          (model_matrix
            (Artifact.mk () ([] : List (String × List String))).factor_levels
            (read_csv (unescapeBody irisRequestBody))) = [p] ∧
      invocations Unit (fun _ X => X.map (fun _ => (0 : ℚ)))
          (Artifact.mk () ([] : List (String × List String))) irisRequestBody =
        numToString p :=
  invocations_single_record_response Unit (fun _ X => X.map (fun _ => (0 : ℚ)))
    (Artifact.mk () ([] : List (String × List String)))
    (fun m X => by simp)
